import Mathlib

/-!
Verification of the evabot-backend telemetry worker
(`cmd/telem_worker/main.go`) against its specification.

The worker consumes JSON telemetry messages from a durable JetStream
subscription, resolves a timestamp (with a magnitude heuristic for the
`ts_ns` override), extracts numeric/boolean fields, and writes a point to
InfluxDB, acknowledging or negatively acknowledging each message.

Modelling conventions:
- Time is modelled as `Int` nanoseconds since the Unix epoch.  Go's
  `time.Time` stores (seconds, nanoseconds) separately, so a `time.Time`
  value never overflows for the values arising here, and `Before`/`After`
  are exactly `Int` order on total nanoseconds.  However the *arguments*
  `ts*1_000` and `ts*1_000_000` passed to `time.Unix(0, ·)` are Go `int64`
  multiplications, which wrap modulo 2^64; this wrapping is modelled
  explicitly by `wrap64`.
- `now.AddDate(-10, 0, 0)` is Gregorian-calendar arithmetic; its result is
  modelled as an input (`MsgIn.nowMinus10y`) produced by the clock, as are
  the two `time.Now()` calls (`now1`, `now2`) and the broker metadata
  timestamp (`mdTime`).
- The worker decodes with `json.Decoder.UseNumber()`, so every number in
  the decoded `map[string]interface{}` is a `json.Number` (never
  `float64`/`int64`); `JNum` models a `json.Number` literal by whether it
  is a pure integer literal (`isInt`, i.e. no fraction and no exponent,
  so that `Int64()` succeeds subject to the int64 range check), its
  integer value `val` (meaningful when `isInt`), and `floatOk`, whether
  `Float64()` (`strconv.ParseFloat`) succeeds — false exactly for
  literals whose value lies outside the float64 range (e.g. `1e400` or a
  401-digit integer), which the extraction switch then silently drops
  via its `err == nil` guard.
- A decoded JSON object is an association list with the keys distinct
  (Go maps have unique keys); theorems that need distinctness take it as a
  hypothesis.
-/

/-- A `json.Number` as produced by decoding with `UseNumber`: `isInt` says
the literal is a plain base-10 integer (no `.`, no exponent), in which
case `val` is its value; `floatOk` says whether `Float64()` succeeds,
which `strconv.ParseFloat` denies (`ErrRange`) exactly when the
literal's value lies outside the float64 range.  (On real literals,
`isInt` with `val` in the int64 range forces `floatOk`, every int64
being float64-representable; no theorem below relies on that.) -/
structure JNum where
  isInt : Bool
  val : Int
  floatOk : Bool
deriving DecidableEq, Repr

/-- A decoded JSON value as stored in the Go `map[string]interface{}`. -/
inductive JsonVal where
  | jnum (n : JNum)
  | jbool (b : Bool)
  | jstr (s : String)
  | jobj (o : List (String × JsonVal))
  | jarr (a : List JsonVal)
  | jnull

/-- The decoded top-level payload object. -/
abbrev JObj := List (String × JsonVal)

/-- Lookup in an association list keyed by strings; models Go map
indexing `m[k]` (keys are unique in a decoded map). -/
def lookupKV {α : Type} (l : List (String × α)) (k : String) : Option α :=
  (l.find? (fun p => p.1 == k)).map (·.2)

/-- Go map indexing `parsed[k]` (missing key yields the nil interface,
modelled as `none`). -/
def jlookup (m : JObj) (k : String) : Option JsonVal :=
  lookupKV m k

/-- Wrap an integer into the signed 64-bit range, modelling Go `int64`
overflow on arithmetic. -/
def wrap64 (x : Int) : Int :=
  (x + 2 ^ 63) % 2 ^ 64 - 2 ^ 63

/-- `time.Unix(0, ns)` and `time.Unix(s, 0)` as total nanoseconds.
`unixAnyToTime` from main.go: classify the magnitude of `ts` to guess its
unit.  The Go multiplications `ts*1_000` and `ts*1_000_000` are `int64`
operations and wrap (`wrap64`); `time.Unix(ts, 0)` stores seconds
directly, so the seconds branch does not wrap. -/
def unixAnyToTime (ts : Int) : Int :=
  if ts ≥ 10 ^ 17 then ts
  else if ts ≥ 10 ^ 14 then wrap64 (ts * 1000)
  else if ts ≥ 10 ^ 11 then wrap64 (ts * 1000000)
  else ts * 1000000000

/-- `json.Number.Int64()`: `strconv.ParseInt(string(n), 10, 64)`, which
succeeds iff the literal is a pure integer within the int64 range. -/
def JNum.int64 (j : JNum) : Option Int :=
  if j.isInt ∧ -(2 ^ 63) ≤ j.val ∧ j.val < 2 ^ 63 then some j.val else none

/-- `asInt64` from main.go, applied to the result of a map lookup.  With
`UseNumber` decoding the value is never a `float64` or `int64`, so only
the `json.Number` case can succeed; a missing key gives the nil interface
(`none`), for which every type case fails. -/
def asInt64 : Option JsonVal → Option Int
  | some (JsonVal.jnum j) => j.int64
  | _ => none

/-- A value stored in the fields map of a point: a number (from
`json.Number.Float64()`), a boolean, or a string (only ever the `raw`
payload text). -/
inductive FieldVal where
  | fnum (n : JNum)
  | fbool (b : Bool)
  | fstr (s : String)
deriving DecidableEq, Repr

/-- The `switch` over a decoded value in `extractFields`: booleans are
kept; a `json.Number` is kept only when `vv.Float64()` returns
`err == nil` (main.go lines 79-83 and 96-99), i.e. only when its value
is within float64 range; everything else is ignored.  (`float64` never
occurs under `UseNumber`.) -/
def scalarOf : JsonVal → Option FieldVal
  | JsonVal.jnum j => if j.floatOk then some (FieldVal.fnum j) else none
  | JsonVal.jbool b => some (FieldVal.fbool b)
  | _ => none

/-- Whether a decoded value is a JSON number or boolean — the claims'
"numeric or boolean member", with no range restriction. -/
def isNumOrBool : JsonVal → Bool
  | JsonVal.jnum _ => true
  | JsonVal.jbool _ => true
  | _ => false

/-- Go map assignment `fields[k] = v` on the association-list model:
replace the (unique) binding of `k` if present, else append. -/
def insertF : List (String × FieldVal) → String → FieldVal → List (String × FieldVal)
  | [], k, v => [(k, v)]
  | p :: t, k, v => if p.1 == k then (k, v) :: t else p :: insertF t k v

/-- One `for k, v := range kvs` loop of `extractFields`: insert every
member that `scalarOf` keeps (boolean, or number with `Float64`
succeeding) whose key is not skipped.  The `data` loop uses
`skip = fun _ => false`; the top-level loop skips the reserved keys. -/
def addScalars (skip : String → Bool) (init : List (String × FieldVal))
    (kvs : List (String × JsonVal)) : List (String × FieldVal) :=
  kvs.foldl (fun acc kv =>
    if skip kv.1 then acc
    else
      match scalarOf kv.2 with
      | some v => insertF acc kv.1 v
      | none => acc) init

/-- The reserved top-level keys skipped by the top-level loop of
`extractFields`. -/
def reservedKey (k : String) : Bool :=
  k == "data" || k == "topic" || k == "trace_id" || k == "ts_ns"

/-- The `data`-block loop of `extractFields`: when `m["data"]` is an
object, its members kept by `scalarOf`, inserted into the empty fields
map; otherwise nothing. -/
def dataFields (m : JObj) : List (String × FieldVal) :=
  match jlookup m "data" with
  | some (JsonVal.jobj d) => addScalars (fun _ => false) [] d
  | _ => []

/-- The optional `topic` of `extractFields`: the type assertion
`m["topic"].(string)`, or `""`. -/
def topicOf (m : JObj) : String :=
  match jlookup m "topic" with
  | some (JsonVal.jstr s) => s
  | _ => ""

/-- `extractFields` from main.go: read the optional `topic` string, copy
the `scalarOf`-kept members of the nested `data` object, then copy the
non-reserved `scalarOf`-kept top-level members (overwriting same-named
`data` members, since the top-level loop runs second). -/
def extractFields (m : JObj) : List (String × FieldVal) × String :=
  (addScalars reservedKey (dataFields m) m, topicOf m)

/-- The handler's field construction: `extractFields` output, then
`fields["raw"] = raw` (main.go line 165). -/
def buildFields (m : JObj) (raw : String) : List (String × FieldVal) :=
  insertF (extractFields m).1 "raw" (FieldVal.fstr raw)

/-- Naive substring containment on character lists (semantics of Go
`strings.Contains`). -/
def containsSubList : List Char → List Char → Bool
  | [], needle => needle.isEmpty
  | c :: t, needle => needle.isPrefixOf (c :: t) || containsSubList t needle

/-- `strings.Contains hay needle`. -/
def strContainsSub (hay needle : String) : Bool :=
  containsSubList hay.toList needle.toList

/-- The handler's permanent-failure classification of an Influx write
error (main.go lines 178-179). -/
def isPermanentErr (e : String) : Bool :=
  strContainsSub e "outside retention policy" || strContainsSub e "unprocessable entity"

/-- The acknowledgment signal sent to JetStream. -/
inductive AckSignal where
  | ack
  | nak
deriving DecidableEq, Repr

/-- The write-ready point (`influxdb2.NewPoint("telemetry", tags, fields, ts)`):
measurement name, tag set, field set, timestamp in nanoseconds. -/
structure Record where
  measurement : String
  tags : List (String × String)
  fields : List (String × FieldVal)
  time : Int
deriving DecidableEq, Repr

/-- One delivered message together with the clock/broker values observed
while handling it: `subject` and raw payload text; `parsed`, the map
produced by `dec.Decode` (empty when decoding fails outright); `mdTime`,
the JetStream metadata timestamp when `msg.Metadata()` succeeds; `now1`,
the `time.Now()` fallback at line 139; `now2`, the `time.Now()` at line
156; `nowMinus10y`, the value of `now2.AddDate(-10, 0, 0)`. -/
structure MsgIn where
  subject : String
  raw : String
  parsed : JObj
  mdTime : Option Int
  now1 : Int
  now2 : Int
  nowMinus10y : Int

/-- What one handler invocation did: the acknowledgment signals issued
(in order), whether `WritePoint` was invoked, and the record it
materialized (tags, fields, timestamp), if any. -/
structure HandlerOut where
  signals : List AckSignal
  wrote : Bool
  record : Option Record
deriving DecidableEq, Repr

/-- Timestamp resolution (main.go lines 139-154): the metadata timestamp
(or `time.Now()`) unless a positive integral `ts_ns` override is present,
which is then run through the magnitude heuristic. -/
def resolveTs (parsed : JObj) (fallback : Int) : Int :=
  match asInt64 (jlookup parsed "ts_ns") with
  | some v => if v > 0 then unixAnyToTime v else fallback
  | none => fallback

/-- Nanoseconds in `24 * time.Hour`. -/
def nsPerDay : Int := 86400 * 1000000000

/-- The tag map built by the handler (main.go lines 167-172): always
`subject`, plus `topic` when the extracted topic is non-empty. -/
def buildTags (subject topic : String) : List (String × String) :=
  if topic ≠ "" then [("subject", subject), ("topic", topic)]
  else [("subject", subject)]

/-- The subscription handler body (main.go lines 137-194), for one
message.  `sinkEnabled` is `write != nil` (an `INFLUX_TOKEN` was set);
`writeErr` is the error returned by `WritePoint` when it is invoked
(`none` = success).  Out-of-window timestamps are dropped with an `Ack`
before any record is built; otherwise the record is materialized and
either written (classifying failures as permanent → `Ack` or transient →
`Nak`) or, with the sink disabled, only logged. -/
def handleMsg (sinkEnabled : Bool) (msg : MsgIn) (writeErr : Option String) : HandlerOut :=
  let ts := resolveTs msg.parsed (msg.mdTime.getD msg.now1)
  if ts < msg.nowMinus10y ∨ ts > msg.now2 + nsPerDay then
    ⟨[AckSignal.ack], false, none⟩
  else
    let r : Record :=
      ⟨"telemetry", buildTags msg.subject (extractFields msg.parsed).2,
        buildFields msg.parsed msg.raw, ts⟩
    if sinkEnabled then
      match writeErr with
      | some e =>
        if isPermanentErr e then ⟨[AckSignal.ack], true, some r⟩
        else ⟨[AckSignal.nak], true, some r⟩
      | none => ⟨[AckSignal.ack], true, some r⟩
    else ⟨[AckSignal.ack], false, some r⟩

/-- The field-extraction contract of §4.2 as amended for C5: a key maps
to its top-level value when that value is boolean or a
float64-representable number and the key is not reserved; otherwise to
such a value in the nested `data` mapping; otherwise it is absent.  (The
original "numeric or boolean" wording omits the `Float64` range guard;
see the C5 counterexample.) -/
def specFieldLookup (m : JObj) (k : String) : Option FieldVal :=
  match (if reservedKey k then none else (jlookup m k).bind scalarOf) with
  | some w => some w
  | none =>
    match jlookup m "data" with
    | some (JsonVal.jobj d) => (jlookup d k).bind scalarOf
    | _ => none

/-! ### Association-list lemmas -/

theorem lookupKV_nil {α : Type} (k : String) : lookupKV ([] : List (String × α)) k = none := rfl

theorem lookupKV_cons {α : Type} (p : String × α) (t : List (String × α)) (k : String) :
    lookupKV (p :: t) k = if p.1 == k then some p.2 else lookupKV t k := by
  by_cases h : p.1 = k
  · simp [lookupKV, List.find?_cons_of_pos, h]
  · have hb : (p.1 == k) = false := by simp [h]
    simp [lookupKV, List.find?_cons, hb]

theorem lookupKV_insertF_self (fs : List (String × FieldVal)) (k : String) (v : FieldVal) :
    lookupKV (insertF fs k v) k = some v := by
  induction fs with
  | nil => simp [insertF, lookupKV_cons]
  | cons p t ih =>
    simp only [insertF]
    by_cases h : p.1 = k
    · simp [h, lookupKV_cons]
    · have hb : (p.1 == k) = false := by simp [h]
      simp [hb, lookupKV_cons, ih]

theorem lookupKV_insertF_ne (fs : List (String × FieldVal)) (k : String) (v : FieldVal)
    (k' : String) (h : k' ≠ k) : lookupKV (insertF fs k v) k' = lookupKV fs k' := by
  induction fs with
  | nil =>
    have hb : (k == k') = false := by simp [Ne.symm h]
    simp [insertF, lookupKV_cons, hb]
  | cons p t ih =>
    simp only [insertF]
    by_cases hp : p.1 = k
    · have hb : (k == k') = false := by simp [Ne.symm h]
      simp [hp, lookupKV_cons, hb]
    · have hb : (p.1 == k) = false := by simp [hp]
      simp [hb, lookupKV_cons, ih]

/-- The loop body of `addScalars`, for reasoning about one step. -/
theorem addScalars_cons (skip : String → Bool) (init : List (String × FieldVal))
    (kv : String × JsonVal) (t : List (String × JsonVal)) :
    addScalars skip init (kv :: t) =
      addScalars skip
        (if skip kv.1 then init
         else
           match scalarOf kv.2 with
           | some v => insertF init kv.1 v
           | none => init) t := by
  simp only [addScalars, List.foldl_cons]

/-- A single loop step never touches the binding of a key different from
the one being visited. -/
theorem lookupKV_step_ne (skip : String → Bool) (init : List (String × FieldVal))
    (kv : String × JsonVal) (k : String) (h : k ≠ kv.1) :
    lookupKV
      (if skip kv.1 then init
       else
         match scalarOf kv.2 with
         | some v => insertF init kv.1 v
         | none => init) k = lookupKV init k := by
  by_cases hs : skip kv.1
  · simp [hs]
  · cases hv : scalarOf kv.2 with
    | none => simp [hs, hv]
    | some w => simp [hs, hv, lookupKV_insertF_ne _ _ _ _ h]

theorem lookupKV_addScalars_notmem (skip : String → Bool) (init : List (String × FieldVal))
    (kvs : List (String × JsonVal)) (k : String) (h : ∀ kv ∈ kvs, kv.1 ≠ k) :
    lookupKV (addScalars skip init kvs) k = lookupKV init k := by
  induction kvs generalizing init with
  | nil => rfl
  | cons kv t ih =>
    rw [addScalars_cons]
    rw [ih _ fun x hx => h x (List.mem_cons_of_mem _ hx)]
    exact lookupKV_step_ne skip init kv k (Ne.symm (h kv (List.mem_cons_self _ _)))

theorem lookupKV_addScalars (skip : String → Bool) (init : List (String × FieldVal))
    (kvs : List (String × JsonVal)) (k : String) (hnd : (kvs.map Prod.fst).Nodup) :
    lookupKV (addScalars skip init kvs) k =
      match lookupKV kvs k with
      | some v =>
        if skip k then lookupKV init k
        else
          match scalarOf v with
          | some w => some w
          | none => lookupKV init k
      | none => lookupKV init k := by
  induction kvs generalizing init with
  | nil => rfl
  | cons kv t ih =>
    rw [List.map_cons, List.nodup_cons] at hnd
    rw [addScalars_cons, lookupKV_cons]
    by_cases hk : kv.1 = k
    · subst hk
      have hnot : ∀ x ∈ t, x.1 ≠ kv.1 := by
        intro x hx heq
        exact hnd.1 (heq ▸ List.mem_map_of_mem Prod.fst hx)
      rw [lookupKV_addScalars_notmem _ _ _ _ hnot]
      by_cases hs : skip kv.1
      · simp [hs]
      · cases hv : scalarOf kv.2 with
        | none => simp [hs, hv]
        | some w => simp [hs, hv, lookupKV_insertF_self]
    · have hb : (kv.1 == k) = false := by simp [hk]
      rw [hb]
      simp only [Bool.false_eq_true, if_false]
      rw [ih _ hnd.2]
      rw [lookupKV_step_ne skip init kv k (Ne.symm hk)]

theorem lookupKV_dataFields (m : JObj) (k : String)
    (hd : ∀ d, jlookup m "data" = some (JsonVal.jobj d) → (d.map Prod.fst).Nodup) :
    lookupKV (dataFields m) k =
      match jlookup m "data" with
      | some (JsonVal.jobj d) => (jlookup d k).bind scalarOf
      | _ => none := by
  unfold dataFields
  cases hdata : jlookup m "data" with
  | none => rfl
  | some v =>
    cases v with
    | jobj d =>
      rw [lookupKV_addScalars _ _ _ _ (hd d hdata)]
      simp only [jlookup]
      cases hk : lookupKV d k with
      | none => rfl
      | some w => cases hw : scalarOf w <;> simp [hw, lookupKV_nil]
    | jnum j => rfl
    | jbool b => rfl
    | jstr s => rfl
    | jarr a => rfl
    | jnull => rfl

/-- Field extraction agrees with the spec-side description (§4.2):
top-level non-reserved numeric/boolean members win; nested `data`
numeric/boolean members fill in the rest. -/
theorem extractFields_lookup (m : JObj) (k : String)
    (hm : (m.map Prod.fst).Nodup)
    (hd : ∀ d, jlookup m "data" = some (JsonVal.jobj d) → (d.map Prod.fst).Nodup) :
    lookupKV (extractFields m).1 k = specFieldLookup m k := by
  show lookupKV (addScalars reservedKey (dataFields m) m) k = _
  rw [lookupKV_addScalars _ _ _ _ hm]
  unfold specFieldLookup
  simp only [jlookup]
  cases hk : lookupKV m k with
  | none =>
    rw [lookupKV_dataFields m k hd]
    simp [jlookup]
  | some v =>
    cases hr : reservedKey k with
    | true =>
      rw [lookupKV_dataFields m k hd]
      simp [jlookup]
    | false =>
      cases hw : scalarOf v with
      | some w => simp [hw]
      | none =>
        rw [lookupKV_dataFields m k hd]
        simp [hw, jlookup]

/-! ### Further shared lemmas -/

theorem insertF_ne_nil (fs : List (String × FieldVal)) (k : String) (v : FieldVal) :
    insertF fs k v ≠ [] := by
  cases fs with
  | nil => simp [insertF]
  | cons p t =>
    simp only [insertF]
    split <;> simp

theorem wrap64_eq_self (x : Int) (h1 : -(2 ^ 63) ≤ x) (h2 : x < 2 ^ 63) : wrap64 x = x := by
  unfold wrap64
  have he : (2 : Int) ^ 64 = 2 ^ 63 + 2 ^ 63 := by norm_num
  have h3 : 0 ≤ x + 2 ^ 63 := by linarith
  have h4 : x + 2 ^ 63 < 2 ^ 64 := by rw [he]; linarith
  rw [Int.emod_eq_of_lt h3 h4]
  ring

theorem lookupKV_mem {α : Type} (l : List (String × α)) (k : String) (v : α)
    (h : lookupKV l k = some v) : (k, v) ∈ l := by
  unfold lookupKV at h
  cases hf : l.find? (fun p => p.1 == k) with
  | none => rw [hf] at h; cases h
  | some p =>
    rw [hf] at h
    have hm := List.mem_of_find?_eq_some hf
    have hp := List.find?_some hf
    obtain ⟨p1, p2⟩ := p
    simp only [Option.map_some', Option.some.injEq] at h
    simp only [beq_iff_eq] at hp
    rw [hp, h] at hm
    exact hm

theorem addScalars_allNone (skip : String → Bool) (init : List (String × FieldVal))
    (kvs : List (String × JsonVal)) (h : ∀ kv ∈ kvs, scalarOf kv.2 = none) :
    addScalars skip init kvs = init := by
  induction kvs generalizing init with
  | nil => rfl
  | cons kv t ih =>
    rw [addScalars_cons]
    have hstep :
        (if skip kv.1 then init
         else
           match scalarOf kv.2 with
           | some v => insertF init kv.1 v
           | none => init) = init := by
      rw [h kv (List.mem_cons_self _ _)]
      split <;> rfl
    rw [hstep]
    exact ih _ fun x hx => h x (List.mem_cons_of_mem _ hx)

/-- The drop path of the handler: an out-of-window resolved timestamp is
acknowledged with no record and no write. -/
theorem handleMsg_drop (sinkEnabled : Bool) (msg : MsgIn) (writeErr : Option String)
    (h : resolveTs msg.parsed (msg.mdTime.getD msg.now1) < msg.nowMinus10y ∨
         resolveTs msg.parsed (msg.mdTime.getD msg.now1) > msg.now2 + nsPerDay) :
    handleMsg sinkEnabled msg writeErr = ⟨[AckSignal.ack], false, none⟩ := by
  simp only [handleMsg]
  rw [if_pos h]

/-- Whenever the handler materializes a record, it is the point built
from the extracted fields, the tags, and the resolved timestamp. -/
theorem handleMsg_record (sinkEnabled : Bool) (msg : MsgIn) (writeErr : Option String)
    (r : Record) (h : (handleMsg sinkEnabled msg writeErr).record = some r) :
    r = ⟨"telemetry", buildTags msg.subject (extractFields msg.parsed).2,
         buildFields msg.parsed msg.raw,
         resolveTs msg.parsed (msg.mdTime.getD msg.now1)⟩ := by
  simp only [handleMsg] at h
  split at h
  · exact Option.noConfusion h
  · split at h
    · split at h
      · split at h
        · exact (Option.some.inj h).symm
        · exact (Option.some.inj h).symm
      · exact (Option.some.inj h).symm
    · exact (Option.some.inj h).symm

theorem buildFields_ne_nil (m : JObj) (raw : String) : buildFields m raw ≠ [] := by
  unfold buildFields
  exact insertF_ne_nil _ _ _

theorem lookupKV_buildFields_raw (m : JObj) (raw : String) :
    lookupKV (buildFields m raw) "raw" = some (FieldVal.fstr raw) := by
  unfold buildFields
  exact lookupKV_insertF_self _ _ _

/-! ### Claims -/

/-- C1: for every message whose resolved timestamp lies outside the
window [now − 10 years, now + 24 hours], the handler acknowledges the
message and returns without constructing a record and without invoking
the sink write, so no out-of-window timestamp is ever forwarded to the
sink. -/
theorem c1_out_of_window_acked_not_forwarded (sinkEnabled : Bool) (msg : MsgIn)
    (writeErr : Option String)
    (h : resolveTs msg.parsed (msg.mdTime.getD msg.now1) < msg.nowMinus10y ∨
         resolveTs msg.parsed (msg.mdTime.getD msg.now1) > msg.now2 + nsPerDay) :
    handleMsg sinkEnabled msg writeErr =
      ⟨[AckSignal.ack], false, none⟩ :=
  handleMsg_drop sinkEnabled msg writeErr h

/-- Witness for C1: a broker timestamp of 0 is more than ten years before
a present-day clock, so the message is acked with no record and no
write. -/
theorem c1_out_of_window_acked_not_forwarded_witness :
    handleMsg true
        ⟨"telemetry.arm1", "x", [], some 0, 0, 1760000000000000000, 1444608000000000000⟩ none =
      ⟨[AckSignal.ack], false, none⟩ :=
  c1_out_of_window_acked_not_forwarded true
    ⟨"telemetry.arm1", "x", [], some 0, 0, 1760000000000000000, 1444608000000000000⟩ none
    (by decide)

/-- C2 counterexample: 10^16 lies in the microsecond band, but the
resolved time is not the value multiplied by 1000 — the Go `int64`
product `ts*1_000` overflows and wraps. -/
theorem c2_mul1000_overflow_cx :
    ((10 : Int) ^ 14 ≤ 10 ^ 16 ∧ (10 : Int) ^ 16 < 10 ^ 17) ∧
    unixAnyToTime (10 ^ 16) ≠ 10 ^ 16 * 1000 := by decide

/-- C2 (amended): the four magnitude bands are classified exactly by the
stated inequalities — ≥ 10^17 nanoseconds (value unchanged), ≥ 10^14
microseconds (value multiplied by 1000 in wrapping 64-bit arithmetic),
≥ 10^11 milliseconds (multiplied by 10^6, wrapping), else seconds — the
microsecond product agreeing with the mathematical `V * 1000` whenever
that fits in int64; and 10^17 − 1 resolves in the microsecond band while
10^17 resolves in the nanosecond band. -/
theorem c2_band_classification (V : Int) (_hV : 0 < V) :
    (10 ^ 17 ≤ V → unixAnyToTime V = V) ∧
    (10 ^ 14 ≤ V → V < 10 ^ 17 → unixAnyToTime V = wrap64 (V * 1000)) ∧
    (10 ^ 11 ≤ V → V < 10 ^ 14 → unixAnyToTime V = wrap64 (V * 1000000)) ∧
    (V < 10 ^ 11 → unixAnyToTime V = V * 1000000000) ∧
    (10 ^ 14 ≤ V → V < 10 ^ 17 → V * 1000 < 2 ^ 63 → unixAnyToTime V = V * 1000) ∧
    unixAnyToTime (10 ^ 17 - 1) = wrap64 ((10 ^ 17 - 1) * 1000) ∧
    unixAnyToTime (10 ^ 17) = 10 ^ 17 := by
  refine ⟨?_, ?_, ?_, ?_, ?_, by decide, by decide⟩
  · intro h1
    unfold unixAnyToTime
    rw [if_pos h1]
  · intro h1 h2
    unfold unixAnyToTime
    rw [if_neg (not_le.mpr h2), if_pos h1]
  · intro h1 h2
    have h3 : V < 10 ^ 17 := lt_of_lt_of_le h2 (by norm_num)
    unfold unixAnyToTime
    rw [if_neg (not_le.mpr h3), if_neg (not_le.mpr h2), if_pos h1]
  · intro h1
    have h3 : V < 10 ^ 17 := lt_of_lt_of_le h1 (by norm_num)
    have h4 : V < 10 ^ 14 := lt_of_lt_of_le h1 (by norm_num)
    unfold unixAnyToTime
    rw [if_neg (not_le.mpr h3), if_neg (not_le.mpr h4), if_neg (not_le.mpr h1)]
  · intro h1 h2 h3
    unfold unixAnyToTime
    rw [if_neg (not_le.mpr h2), if_pos h1]
    exact wrap64_eq_self _ (by linarith) h3

/-- Witness for C2: a present-day microsecond epoch value lands in the
microsecond band. -/
theorem c2_band_classification_witness :
    0 < (1700000000000000 : Int) ∧
    unixAnyToTime 1700000000000000 = wrap64 (1700000000000000 * 1000) :=
  ⟨by decide,
    (c2_band_classification 1700000000000000 (by decide)).2.1 (by decide) (by decide)⟩

/-- C3: with the sink enabled and an in-window timestamp, a failed write
is classified permanent exactly when the error text contains "outside
retention policy" or "unprocessable entity"; a permanent failure is
acknowledged (dropped, no retry) and every other failure is negatively
acknowledged (retried), never dropped. -/
theorem c3_permanent_vs_transient (msg : MsgIn) (e : String)
    (hin : ¬(resolveTs msg.parsed (msg.mdTime.getD msg.now1) < msg.nowMinus10y ∨
             resolveTs msg.parsed (msg.mdTime.getD msg.now1) > msg.now2 + nsPerDay)) :
    isPermanentErr e =
        (strContainsSub e "outside retention policy" ||
          strContainsSub e "unprocessable entity") ∧
      (handleMsg true msg (some e)).wrote = true ∧
      (handleMsg true msg (some e)).signals =
        (if isPermanentErr e then [AckSignal.ack] else [AckSignal.nak]) := by
  refine ⟨rfl, ?_, ?_⟩
  all_goals
    simp only [handleMsg]
    rw [if_neg hin]
    by_cases hp : isPermanentErr e = true
    · simp [hp]
    · simp [hp]

/-- Witness for C3: an "unprocessable entity" write failure on an
in-window message is classified permanent and acked. -/
theorem c3_permanent_vs_transient_witness :
    isPermanentErr "unprocessable entity" =
        (strContainsSub "unprocessable entity" "outside retention policy" ||
          strContainsSub "unprocessable entity" "unprocessable entity") ∧
      (handleMsg true
          ⟨"telemetry.arm1", "x", [], some 1760000000000000000, 0, 1760000000000000000,
            1444608000000000000⟩ (some "unprocessable entity")).wrote = true ∧
      (handleMsg true
          ⟨"telemetry.arm1", "x", [], some 1760000000000000000, 0, 1760000000000000000,
            1444608000000000000⟩ (some "unprocessable entity")).signals =
        (if isPermanentErr "unprocessable entity" then [AckSignal.ack] else [AckSignal.nak]) :=
  c3_permanent_vs_transient
    ⟨"telemetry.arm1", "x", [], some 1760000000000000000, 0, 1760000000000000000,
      1444608000000000000⟩ "unprocessable entity" (by decide)

/-- C4: on every control path — invalid timestamp, permanent rejection,
transient failure, successful write, disabled sink, and decode failure
(arbitrary `parsed`, including empty) — the handler issues exactly one
acknowledgment signal, never zero and never two. -/
theorem c4_exactly_one_ack_signal (sinkEnabled : Bool) (msg : MsgIn)
    (writeErr : Option String) :
    (handleMsg sinkEnabled msg writeErr).signals.length = 1 := by
  simp only [handleMsg]
  repeat' split
  all_goals rfl

/-- C5 counterexample: a non-reserved numeric top-level member whose
value lies outside the float64 range (a 401-digit integer, so
`Float64()` fails) is silently dropped by extraction, so extraction
does not copy exactly the numeric-or-boolean members. -/
theorem c5_out_of_range_numeric_dropped_cx :
    isNumOrBool (JsonVal.jnum ⟨true, 10 ^ 400, false⟩) = true ∧
    reservedKey "x" = false ∧
    lookupKV (extractFields [("x", JsonVal.jnum ⟨true, 10 ^ 400, false⟩)]).1 "x" = none := by
  decide

/-- C5 (amended): for every parsed payload (with the unique keys a Go
map guarantees), field extraction yields exactly the non-reserved
top-level members whose value is boolean or a float64-representable
number, plus such members of the nested `data` mapping; out-of-range
numbers, strings, objects and arrays are silently ignored, and a
top-level key is never overwritten by a same-named `data` key. -/
theorem c5_extract_exactly_scalars (m : JObj) (k : String)
    (hm : (m.map Prod.fst).Nodup)
    (hd : ∀ d, jlookup m "data" = some (JsonVal.jobj d) → (d.map Prod.fst).Nodup) :
    lookupKV (extractFields m).1 k = specFieldLookup m k :=
  extractFields_lookup m k hm hd

/-- Witness for C5: a payload where the top-level `x` shadows a nested
`data.x` and `y` comes from `data`; checked at key `x`. -/
theorem c5_extract_exactly_scalars_witness :
    lookupKV (extractFields [("x", JsonVal.jnum ⟨true, 1, true⟩), ("s", JsonVal.jstr "z"),
        ("data", JsonVal.jobj [("x", JsonVal.jbool true), ("y", JsonVal.jnum ⟨true, 2, true⟩)])]).1 "x" =
      specFieldLookup [("x", JsonVal.jnum ⟨true, 1, true⟩), ("s", JsonVal.jstr "z"),
        ("data", JsonVal.jobj [("x", JsonVal.jbool true), ("y", JsonVal.jnum ⟨true, 2, true⟩)])] "x" :=
  c5_extract_exactly_scalars
    [("x", JsonVal.jnum ⟨true, 1, true⟩), ("s", JsonVal.jstr "z"),
      ("data", JsonVal.jobj [("x", JsonVal.jbool true), ("y", JsonVal.jnum ⟨true, 2, true⟩)])] "x"
    (by decide)
    (by
      intro d hdd
      have h2 := JsonVal.jobj.inj (Option.some.inj hdd)
      rw [← h2]
      decide)

/-- C6: every record the handler materializes has a non-empty field set
with `raw` bound to the original payload text, a `subject` tag bound to
the message subject, and a `topic` tag exactly when the extracted topic
is non-empty. -/
theorem c6_record_invariants (sinkEnabled : Bool) (msg : MsgIn) (writeErr : Option String)
    (r : Record) (h : (handleMsg sinkEnabled msg writeErr).record = some r) :
    r.fields ≠ [] ∧
      lookupKV r.fields "raw" = some (FieldVal.fstr msg.raw) ∧
      lookupKV r.tags "subject" = some msg.subject ∧
      lookupKV r.tags "topic" =
        (if (extractFields msg.parsed).2 ≠ "" then some (extractFields msg.parsed).2
         else none) := by
  have hr := handleMsg_record sinkEnabled msg writeErr r h
  subst hr
  refine ⟨buildFields_ne_nil _ _, lookupKV_buildFields_raw _ _, ?_, ?_⟩
  · show lookupKV (buildTags msg.subject (extractFields msg.parsed).2) "subject" = _
    unfold buildTags
    split <;> rfl
  · show lookupKV (buildTags msg.subject (extractFields msg.parsed).2) "topic" = _
    unfold buildTags
    by_cases ht : (extractFields msg.parsed).2 ≠ ""
    · rw [if_pos ht, if_pos ht]
      rfl
    · rw [if_neg ht, if_neg ht]
      rfl

/-- Witness for C6: the record built for a payload with a topic and one
numeric field. -/
theorem c6_record_invariants_witness :
    (⟨"telemetry", [("subject", "telemetry.arm1"), ("topic", "arm")],
        [("x", FieldVal.fnum ⟨true, 1, true⟩), ("raw", FieldVal.fstr "x")],
        1760000000000000000⟩ : Record).fields ≠ [] ∧
      lookupKV (⟨"telemetry", [("subject", "telemetry.arm1"), ("topic", "arm")],
          [("x", FieldVal.fnum ⟨true, 1, true⟩), ("raw", FieldVal.fstr "x")],
          1760000000000000000⟩ : Record).fields "raw" = some (FieldVal.fstr "x") ∧
      lookupKV (⟨"telemetry", [("subject", "telemetry.arm1"), ("topic", "arm")],
          [("x", FieldVal.fnum ⟨true, 1, true⟩), ("raw", FieldVal.fstr "x")],
          1760000000000000000⟩ : Record).tags "subject" = some "telemetry.arm1" ∧
      lookupKV (⟨"telemetry", [("subject", "telemetry.arm1"), ("topic", "arm")],
          [("x", FieldVal.fnum ⟨true, 1, true⟩), ("raw", FieldVal.fstr "x")],
          1760000000000000000⟩ : Record).tags "topic" =
        (if (extractFields [("topic", JsonVal.jstr "arm"),
              ("x", JsonVal.jnum ⟨true, 1, true⟩)]).2 ≠ "" then
          some (extractFields [("topic", JsonVal.jstr "arm"),
            ("x", JsonVal.jnum ⟨true, 1, true⟩)]).2
         else none) :=
  c6_record_invariants true
    ⟨"telemetry.arm1", "x", [("topic", JsonVal.jstr "arm"), ("x", JsonVal.jnum ⟨true, 1, true⟩)],
      some 1760000000000000000, 0, 1760000000000000000, 1444608000000000000⟩ none
    ⟨"telemetry", [("subject", "telemetry.arm1"), ("topic", "arm")],
      [("x", FieldVal.fnum ⟨true, 1, true⟩), ("raw", FieldVal.fstr "x")], 1760000000000000000⟩
    (by decide)

/-- C7: when decoding fails outright (empty decoded map) or the payload
has no `data` member and no numeric/boolean top-level members, the
timestamp falls back to the broker receipt time and the produced field
set is exactly the single `raw` binding holding the payload verbatim. -/
theorem c7_decode_failure_raw_only (msg : MsgIn) (bt : Int)
    (hmd : msg.mdTime = some bt)
    (h : msg.parsed = [] ∨
         (jlookup msg.parsed "data" = none ∧
           ∀ kv ∈ msg.parsed, isNumOrBool kv.2 = false)) :
    resolveTs msg.parsed (msg.mdTime.getD msg.now1) = bt ∧
    buildFields msg.parsed msg.raw = [("raw", FieldVal.fstr msg.raw)] := by
  have hget : msg.mdTime.getD msg.now1 = bt := by rw [hmd]; rfl
  have hcore : jlookup msg.parsed "data" = none ∧
      ∀ kv ∈ msg.parsed, isNumOrBool kv.2 = false := by
    rcases h with hnil | h
    · rw [hnil]
      exact ⟨rfl, by intro kv hkv; cases hkv⟩
    · exact h
  obtain ⟨hdata, hnb⟩ := hcore
  have hsc : ∀ kv ∈ msg.parsed, scalarOf kv.2 = none := by
    intro kv hkv
    obtain ⟨k1, v1⟩ := kv
    have h1 := hnb (k1, v1) hkv
    cases v1 with
    | jnum j => simp [isNumOrBool] at h1
    | jbool b => simp [isNumOrBool] at h1
    | jstr s => rfl
    | jobj o => rfl
    | jarr a => rfl
    | jnull => rfl
  constructor
  · rw [hget]
    unfold resolveTs
    have hts : asInt64 (jlookup msg.parsed "ts_ns") = none := by
      cases hv : jlookup msg.parsed "ts_ns" with
      | none => rfl
      | some v =>
        have hmem := lookupKV_mem _ _ _ hv
        have h1 := hnb _ hmem
        cases v with
        | jnum j => simp [isNumOrBool] at h1
        | jbool b => rfl
        | jstr s => rfl
        | jobj o => rfl
        | jarr a => rfl
        | jnull => rfl
    rw [hts]
  · unfold buildFields
    have hext : (extractFields msg.parsed).1 = [] := by
      show addScalars reservedKey (dataFields msg.parsed) msg.parsed = []
      rw [addScalars_allNone _ _ _ hsc]
      unfold dataFields
      rw [hdata]
    rw [hext]
    rfl

/-- Witness for C7: a payload that failed to decode (empty map) keeps the
broker receipt time and yields only the `raw` field. -/
theorem c7_decode_failure_raw_only_witness :
    resolveTs [] (Option.getD (some 42) 7) = 42 ∧
    buildFields [] "oops" = [("raw", FieldVal.fstr "oops")] :=
  c7_decode_failure_raw_only ⟨"telemetry.a", "oops", [], some 42, 7, 0, 0⟩ 42 rfl (Or.inl rfl)

/-- C8 counterexample: 99999999999999999 = 10^17 − 1 is below the 10^17
nanosecond threshold, so it does not resolve in the nanosecond band (a
nanosecond interpretation would leave the value unchanged). -/
theorem c8_not_nanosecond_band_cx :
    (99999999999999999 : Int) < 10 ^ 17 ∧
    unixAnyToTime 99999999999999999 ≠ 99999999999999999 := by decide

/-- C8 (amended): the payload `ts_ns = 99999999999999999` resolves in
the *microsecond* band — the wrapping product `× 1000` gives
7766279631452240920 ns (≈ year 2216) — which exceeds now + 24h for any
present-day clock, so the message is dropped: acknowledged, no record,
no sink write. -/
theorem c8_far_future_dropped (sinkEnabled : Bool) (msg : MsgIn) (writeErr : Option String)
    (hp : jlookup msg.parsed "ts_ns" = some (JsonVal.jnum ⟨true, 99999999999999999, true⟩))
    (hnow : msg.now2 + nsPerDay < 7766279631452240920) :
    resolveTs msg.parsed (msg.mdTime.getD msg.now1) = 7766279631452240920 ∧
    handleMsg sinkEnabled msg writeErr = ⟨[AckSignal.ack], false, none⟩ := by
  have hres : resolveTs msg.parsed (msg.mdTime.getD msg.now1) = 7766279631452240920 := by
    unfold resolveTs
    rw [hp]
    simp only [asInt64]
    have h1 : JNum.int64 ⟨true, 99999999999999999, true⟩ = some 99999999999999999 := by decide
    rw [h1]
    show (if (99999999999999999 : Int) > 0 then unixAnyToTime 99999999999999999
          else msg.mdTime.getD msg.now1) = 7766279631452240920
    rw [if_pos (by decide : (99999999999999999 : Int) > 0)]
    decide
  refine ⟨hres, handleMsg_drop _ _ _ (Or.inr ?_)⟩
  rw [gt_iff_lt, hres]
  exact hnow

/-- Witness for C8 at a present-day clock. -/
theorem c8_far_future_dropped_witness :
    resolveTs [("ts_ns", JsonVal.jnum ⟨true, 99999999999999999, true⟩)]
        (Option.getD (some 1760000000000000000) 0) = 7766279631452240920 ∧
    handleMsg true
        ⟨"telemetry.a", "x", [("ts_ns", JsonVal.jnum ⟨true, 99999999999999999, true⟩)],
          some 1760000000000000000, 0, 1760000000000000000, 1444608000000000000⟩ none =
      ⟨[AckSignal.ack], false, none⟩ :=
  c8_far_future_dropped true
    ⟨"telemetry.a", "x", [("ts_ns", JsonVal.jnum ⟨true, 99999999999999999, true⟩)],
      some 1760000000000000000, 0, 1760000000000000000, 1444608000000000000⟩ none
    rfl (by decide)

/-- C9: a `ts_ns` member that is zero, negative, or a JSON number with a
fractional part is treated as an absent override: the broker receipt
time is used as the resolved timestamp. -/
theorem c9_invalid_override_ignored (msg : MsgIn) (j : JNum)
    (hp : jlookup msg.parsed "ts_ns" = some (JsonVal.jnum j))
    (hj : j.isInt = false ∨ j.val ≤ 0) :
    resolveTs msg.parsed (msg.mdTime.getD msg.now1) = msg.mdTime.getD msg.now1 := by
  unfold resolveTs
  rw [hp]
  simp only [asInt64]
  rcases hj with hj | hj
  · have hnone : j.int64 = none := by
      unfold JNum.int64
      rw [if_neg]
      rintro ⟨h1, _⟩
      rw [hj] at h1
      exact Bool.false_ne_true h1
    rw [hnone]
  · cases hi : j.int64 with
    | none => rfl
    | some v =>
      have hv : v = j.val := by
        unfold JNum.int64 at hi
        split at hi
        · exact (Option.some.inj hi).symm
        · cases hi
      show (if v > 0 then unixAnyToTime v else msg.mdTime.getD msg.now1) =
        msg.mdTime.getD msg.now1
      have hng : ¬ v > 0 := by rw [hv]; omega
      rw [if_neg hng]

/-- Witness for C9: a negative `ts_ns` is ignored and the broker time
kept. -/
theorem c9_invalid_override_ignored_witness :
    resolveTs [("ts_ns", JsonVal.jnum ⟨true, -5, true⟩)] (Option.getD (some 99) 3) =
      Option.getD (some 99) 3 :=
  c9_invalid_override_ignored
    ⟨"telemetry.a", "x", [("ts_ns", JsonVal.jnum ⟨true, -5, true⟩)], some 99, 3, 0, 0⟩
    ⟨true, -5, true⟩ rfl (Or.inr (by decide))

/-- C10 counterexample: a payload-supplied numeric `raw` member whose
value lies outside the float64 range is a numeric `raw` key that is
*not* extracted (the claim's "is extracted" fails), though the built
field set still binds `raw` to the original payload text. -/
theorem c10_out_of_range_raw_not_extracted_cx :
    isNumOrBool (JsonVal.jnum ⟨true, 10 ^ 400, false⟩) = true ∧
    lookupKV (extractFields [("raw", JsonVal.jnum ⟨true, 10 ^ 400, false⟩)]).1 "raw" = none ∧
    lookupKV (buildFields [("raw", JsonVal.jnum ⟨true, 10 ^ 400, false⟩)] "x") "raw" =
      some (FieldVal.fstr "x") := by
  decide

/-- C10 (amended): when the payload supplies a `raw` key whose value
extraction keeps — a boolean or a float64-representable number,
top-level or nested in `data` per the extraction contract — that value
is extracted; but the handler then unconditionally overwrites the
binding, so the built field set binds `raw` to the original payload
text. -/
theorem c10_raw_never_payload_controlled (m : JObj) (raw : String) (w : FieldVal)
    (hm : (m.map Prod.fst).Nodup)
    (hd : ∀ d, jlookup m "data" = some (JsonVal.jobj d) → (d.map Prod.fst).Nodup)
    (hraw : specFieldLookup m "raw" = some w) :
    lookupKV (extractFields m).1 "raw" = some w ∧
    lookupKV (buildFields m raw) "raw" = some (FieldVal.fstr raw) :=
  ⟨(extractFields_lookup m "raw" hm hd).trans hraw, lookupKV_buildFields_raw m raw⟩

/-- Witness for C10: a payload carrying a numeric top-level `raw`
member. -/
theorem c10_raw_never_payload_controlled_witness :
    lookupKV (extractFields [("raw", JsonVal.jnum ⟨true, 7, true⟩)]).1 "raw" =
        some (FieldVal.fnum ⟨true, 7, true⟩) ∧
    lookupKV (buildFields [("raw", JsonVal.jnum ⟨true, 7, true⟩)] "x") "raw" =
        some (FieldVal.fstr "x") :=
  c10_raw_never_payload_controlled [("raw", JsonVal.jnum ⟨true, 7, true⟩)] "x"
    (FieldVal.fnum ⟨true, 7, true⟩) (by decide)
    (by intro d hdd; exact Option.noConfusion hdd)
    (by decide)
